import Mathlib

/-!
Verification of the gemi bot core (dialog session manager, persistent store
adapter, streaming completion adapter) against its natural-language
specification.  The Python source (src/bot/gemini_utils.py, src/bot/database.py)
is shallowly embedded: stateful MongoDB code becomes explicit state passing
over association lists (which preserve insertion order, matching the store's
natural order), Python ints become Lean Int, timestamps become Nat parameters,
the generative backend's answer/chunks become explicit parameters, and
exceptions become Except.
-/

set_option maxRecDepth 4000

namespace Gemi

/-! ## Python string primitives -/

/-- Whitespace set used by Python str.split and str.strip with no argument. -/
def isPySpace (c : Char) : Bool :=
  c == ' ' || c == '\t' || c == '\n' || c == '\r' || c == '\x0b' || c == '\x0c'

/-- Counts maximal runs of non-whitespace characters; the flag records whether
we are currently inside a word.  len(s.split()) in Python equals this count. -/
def countWordsAux : Bool → List Char → Nat
  | _, [] => 0
  | inWord, c :: cs =>
    if isPySpace c then countWordsAux false cs
    else (if inWord then 0 else 1) + countWordsAux true cs

/-- Python len(s.split()): number of whitespace-delimited words of s. -/
def countWords (s : String) : Nat := countWordsAux false s.data

/-- Python s.strip(): remove leading and trailing whitespace. -/
def pyStrip (s : String) : String :=
  String.mk (((s.data.dropWhile isPySpace).reverse.dropWhile isPySpace).reverse)

/-- Python " ".join(ss). -/
def pyJoinSpace : List String → String
  | [] => ""
  | [s] => s
  | s :: s2 :: rest => s ++ " " ++ pyJoinSpace (s2 :: rest)

/-! ## Association-list primitives, modelling keyed MongoDB collections and
Python dicts.  Keys are unique in every reachable store state; lists keep the
store's natural (insertion) order. -/

/-- First value bound to key k, like a MongoDB find_one on _id. -/
def alist_find (k : α) [DecidableEq α] : List (α × β) → Option β
  | [] => none
  | p :: ps => if p.1 = k then some p.2 else alist_find k ps

/-- Rewrite the value bound to key k in place, preserving order, like an
in-place dict update or a MongoDB update_one on a unique key. -/
def alist_map_at (k : α) [DecidableEq α] (f : β → β) (l : List (α × β)) :
    List (α × β) :=
  l.map fun p => if p.1 = k then (p.1, f p.2) else p

theorem alist_find_append_of_some [DecidableEq α] {k : α} {a b : List (α × β)}
    {v : β} (h : alist_find k a = some v) :
    alist_find k (a ++ b) = some v := by
  induction a with
  | nil => simp [alist_find] at h
  | cons p ps ih =>
    simp only [alist_find, List.cons_append] at h ⊢
    split at h
    · simp_all
    · simp [*, ih h]

theorem alist_find_append_of_none [DecidableEq α] {k : α} {a : List (α × β)}
    (b : List (α × β)) (h : alist_find k a = none) :
    alist_find k (a ++ b) = alist_find k b := by
  induction a with
  | nil => rfl
  | cons p ps ih =>
    simp only [alist_find, List.cons_append] at h ⊢
    split at h
    · exact absurd h (by simp)
    · simp [*, ih h]

theorem alist_find_map_at_self [DecidableEq α] {k : α} (f : β → β)
    (l : List (α × β)) :
    alist_find k (alist_map_at k f l) = (alist_find k l).map f := by
  induction l with
  | nil => rfl
  | cons p ps ih =>
    by_cases hk : p.1 = k <;> simp [alist_map_at, alist_find, hk, ih] at *

theorem alist_find_singleton [DecidableEq α] (k : α) (v : β) :
    alist_find k [(k, v)] = some v := by
  simp [alist_find]

/-- Bounded any is stable under pointwise equal predicates. -/
theorem list_any_ext {l : List α} {f g : α → Bool}
    (h : ∀ x ∈ l, f x = g x) : l.any f = l.any g := by
  induction l with
  | nil => rfl
  | cons x xs ih =>
    simp only [List.any_cons]
    rw [h x (by simp), ih fun y hy => h y (by simp [hy])]

theorem list_map_id_of {l : List α} {f : α → α}
    (h : ∀ x ∈ l, f x = x) : l.map f = l := by
  induction l with
  | nil => rfl
  | cons x xs ih =>
    simp only [List.map_cons]
    rw [h x (by simp), ih fun y hy => h y (by simp [hy])]

/-! ## Configuration (src/bot/config.py): the injected read-only mode and
model tables.  Only the fields the core reads are modelled: each chat mode's
prompt_start text and the ordered list of available text models. -/

structure Config where
  chat_modes : List (String × String)
  available_text_models : List String
  deriving DecidableEq

/-! ## Completion adapter (src/bot/gemini_utils.py) -/

/-- One role-tagged prompt entry, the dicts built by _generate_prompt_messages. -/
structure PromptMessage where
  role : String
  content : String
  deriving DecidableEq

/-- One stored turn of a dialog: the dicts {"user": ..., "bot": ...}. -/
structure DialogMessage where
  user : String
  bot : String
  deriving DecidableEq

inductive GeminiError where
  | valueError (msg : String)
  deriving DecidableEq

/-- GeminiChat._generate_prompt_messages: a system entry with the mode's
prompt_start, then for each prior turn a user entry and a model entry appended
in a loop, then the new message as a final user entry.  The caller has already
looked the prompt text up in the mode table. -/
def generate_prompt_messages (promptStart : String)
    (dialog_messages : List DialogMessage) (message : String) :
    List PromptMessage :=
  let messages : List PromptMessage := [⟨"system", promptStart⟩]
  let messages := dialog_messages.foldl
    (fun ms dm => ms ++ [⟨"user", dm.user⟩, ⟨"model", dm.bot⟩]) messages
  messages ++ [⟨"user", message⟩]

/-- Prompt construction as invoked by send_message / send_message_stream: the
mode-table membership check followed by _generate_prompt_messages; none models
the ValueError raised for an unsupported mode. -/
def prompt_messages_for_mode (cfg : Config) (message : String)
    (dialog_messages : List DialogMessage) (chat_mode : String) :
    Option (List PromptMessage) :=
  (alist_find chat_mode cfg.chat_modes).map fun promptStart =>
    generate_prompt_messages promptStart dialog_messages message

/-- GeminiChat._postprocess_answer: answer.strip(). -/
def postprocess_answer (answer : String) : String := pyStrip answer

/-- Result tuple of send_message: (answer, (n_input_tokens, n_output_tokens), 0). -/
structure CompletionResult where
  answer : String
  n_input_tokens : Nat
  n_output_tokens : Nat
  cost : Nat
  deriving DecidableEq

/-- The input token approximation of both send paths:
len(" ".join([m["content"] for m in messages]).split()). -/
def prompt_input_tokens (promptStart : String)
    (dialog_messages : List DialogMessage) (message : String) : Nat :=
  countWords (pyJoinSpace
    ((generate_prompt_messages promptStart dialog_messages message).map
      PromptMessage.content))

/-- GeminiChat.send_message.  rawAnswer stands for response.text returned by
the backend on the success path. -/
def send_message (cfg : Config) (message : String)
    (dialog_messages : List DialogMessage) (chat_mode : String)
    (rawAnswer : String) : Except GeminiError CompletionResult :=
  match alist_find chat_mode cfg.chat_modes with
  | none =>
    .error (.valueError ("Chat mode " ++ chat_mode ++ " is not supported"))
  | some promptStart =>
    .ok ⟨postprocess_answer rawAnswer,
      prompt_input_tokens promptStart dialog_messages message,
      countWords rawAnswer, 0⟩

/-- One yielded event of send_message_stream:
(status, answer, (n_input_tokens, n_output_tokens), 0). -/
structure StreamEvent where
  tag : String
  answer : String
  n_input_tokens : Nat
  n_output_tokens : Nat
  cost : Nat
  deriving DecidableEq

/-- State threaded through the async-for loop of send_message_stream: the
accumulated answer, the last bound value of n_output_tokens (none while the
Python local is still unbound), and the events yielded so far. -/
structure LoopResult where
  answer : String
  n_output_tokens : Option Nat
  events : List StreamEvent
  deriving DecidableEq

/-- The async-for loop of send_message_stream: empty chunk texts are falsy and
skipped; a non-empty chunk is appended to the accumulated answer and an event
carrying that accumulated answer is yielded. -/
def stream_loop (nIn : Nat) (acc : String) (nOut : Option Nat) :
    List String → LoopResult
  | [] => ⟨acc, nOut, []⟩
  | c :: rest =>
    if c = "" then stream_loop nIn acc nOut rest
    else
      let acc2 := acc ++ c
      let k := countWords acc2
      let r := stream_loop nIn acc2 (some k) rest
      ⟨r.answer, r.n_output_tokens, ⟨"not_finished", acc2, nIn, k, 0⟩ :: r.events⟩

/-- The terminal yield of send_message_stream: the finished event with the
post-processed accumulated answer, or — when no chunk was truthy and the
Python local n_output_tokens was never bound — the NameError caught by the
blanket handler and re-raised as the uniform wrapped error. -/
def finish_stream (nIn : Nat) (r : LoopResult) :
    Except GeminiError (List StreamEvent) :=
  match r.n_output_tokens with
  | none =>
    .error (.valueError
      "Error in Gemini API: name n_output_tokens is not defined")
  | some k =>
    .ok (r.events ++ [⟨"finished", postprocess_answer r.answer, nIn, k, 0⟩])

/-- GeminiChat.send_message_stream on a normally terminating backend stream
delivering the given chunk texts. -/
def send_message_stream (cfg : Config) (message : String)
    (dialog_messages : List DialogMessage) (chat_mode : String)
    (chunks : List String) : Except GeminiError (List StreamEvent) :=
  match alist_find chat_mode cfg.chat_modes with
  | none =>
    .error (.valueError ("Chat mode " ++ chat_mode ++ " is not supported"))
  | some promptStart =>
    finish_stream (prompt_input_tokens promptStart dialog_messages message)
      (stream_loop (prompt_input_tokens promptStart dialog_messages message)
        "" none chunks)

/-! ## Persistent store adapter (src/bot/database.py).  The two MongoDB
collections become insertion-ordered association lists keyed by _id.  Python
int arguments are Int (the isinstance integer checks of the source hold by
type), datetime.now() becomes an explicit Nat timestamp parameter, and
uuid.uuid4() becomes an explicit fresh dialog-id parameter.
n_transcribed_seconds is a float in the source but is only ever initialized
to 0.0 and never touched by the core, so it is modelled as Int. -/

structure UserDoc where
  chat_id : Int
  username : String
  first_name : String
  last_name : String
  last_interaction : Nat
  first_seen : Nat
  current_dialog_id : Option String
  current_chat_mode : String
  current_model : String
  n_used_tokens : List (String × Int × Int)
  n_generated_images : Int
  n_transcribed_seconds : Int
  deriving DecidableEq

structure DialogDoc where
  user_id : Int
  chat_mode : String
  start_time : Nat
  model : String
  messages : List DialogMessage
  deriving DecidableEq

structure DBState where
  users : List (Int × UserDoc)
  dialogs : List (String × DialogDoc)
  deriving DecidableEq

inductive DBError where
  | valueError (msg : String)
  deriving DecidableEq

/-- Database.check_if_user_exists with raise_exception=False:
count_documents on _id is positive. -/
def check_if_user_exists (s : DBState) (user_id : Int) : Bool :=
  (alist_find user_id s.users).isSome

/-- Database.check_if_user_exists with raise_exception=True followed by
find_one, as done by every operation that reads the user document. -/
def get_user_doc (s : DBState) (user_id : Int) : Except DBError UserDoc :=
  match alist_find user_id s.users with
  | none => .error (.valueError "User does not exist")
  | some u => .ok u

/-- Database.add_new_user: insert a fresh user document with the default
mutable fields only when the id is not already present; otherwise do nothing.
The first configured text model initializes current_model (an empty model
table would raise, as the source's list indexing would). -/
def add_new_user (cfg : Config) (s : DBState) (user_id chat_id : Int)
    (username first_name last_name : String) (now : Nat) :
    Except DBError DBState :=
  if check_if_user_exists s user_id then .ok s
  else
    match cfg.available_text_models with
    | [] => .error (.valueError "no available text models configured")
    | m0 :: _ =>
      .ok { s with users := s.users ++ [(user_id,
        { chat_id := chat_id
          username := username
          first_name := first_name
          last_name := last_name
          last_interaction := now
          first_seen := now
          current_dialog_id := none
          current_chat_mode := "assistant"
          current_model := m0
          n_used_tokens := []
          n_generated_images := 0
          n_transcribed_seconds := 0 })] }

/-- Database.start_new_dialog: after the user existence check, insert a
dialog snapshotting the user's current chat mode and model (insert_one on a
duplicate id would raise through the unique index), then set the user's
current_dialog_id to the new id. -/
def start_new_dialog (s : DBState) (user_id : Int) (dialog_id : String)
    (now : Nat) : Except DBError (String × DBState) :=
  match alist_find user_id s.users with
  | none => .error (.valueError "User does not exist")
  | some u =>
    if (alist_find dialog_id s.dialogs).isSome then
      .error (.valueError "duplicate dialog id")
    else
      let d : DialogDoc :=
        ⟨user_id, u.current_chat_mode, now, u.current_model, []⟩
      let s1 := { s with dialogs := s.dialogs ++ [(dialog_id, d)] }
      let s2 := { s1 with
        users := alist_map_at user_id
          (fun v => { v with current_dialog_id := some dialog_id }) s1.users }
      .ok (dialog_id, s2)

/-- Database.set_user_attribute applied to the n_used_tokens key: existence
check, then update_one with a $set of that field. -/
def set_user_tokens (s : DBState) (user_id : Int)
    (toks : List (String × Int × Int)) : Except DBError DBState :=
  if check_if_user_exists s user_id then
    .ok { s with
      users := alist_map_at user_id
        (fun u => { u with n_used_tokens := toks }) s.users }
  else .error (.valueError "User does not exist")

/-- Database.update_n_used_tokens.  The source validates only
isinstance(..., int) on both counts, which Int satisfies by type; the dict is
then updated in place for a known model or extended with a fresh entry, and
written back through set_user_attribute. -/
def update_n_used_tokens (s : DBState) (user_id : Int) (model : String)
    (n_input_tokens n_output_tokens : Int) : Except DBError DBState :=
  match get_user_doc s user_id with
  | .error e => .error e
  | .ok u =>
    let toks := u.n_used_tokens
    let toks2 :=
      if (alist_find model toks).isSome then
        alist_map_at model
          (fun c => (c.1 + n_input_tokens, c.2 + n_output_tokens)) toks
      else toks ++ [(model, n_input_tokens, n_output_tokens)]
    set_user_tokens s user_id toks2

/-- Stored counters for one user and model, read back for the theorems. -/
def user_model_tokens (s : DBState) (user_id : Int) (model : String) :
    Option (Int × Int) :=
  match alist_find user_id s.users with
  | none => none
  | some u => alist_find model u.n_used_tokens

/-- Database.set_dialog_messages: user existence check, resolution of an
omitted dialog id to the user's current one, the Python falsiness test on the
resolved id, then an update_one keyed on both dialog id and owning user id —
which silently matches nothing when the dialog is absent or foreign. -/
def set_dialog_messages (s : DBState) (user_id : Int)
    (dialog_messages : List DialogMessage) (dialog_id : Option String) :
    Except DBError DBState :=
  match get_user_doc s user_id with
  | .error e => .error e
  | .ok u =>
    let did := match dialog_id with
      | some d => some d
      | none => u.current_dialog_id
    match did with
    | none => .error (.valueError "No current dialog found")
    | some d =>
      if d = "" then .error (.valueError "No current dialog found")
      else
        .ok { s with dialogs := s.dialogs.map fun p =>
          if p.1 = d ∧ p.2.user_id = user_id then
            (p.1, { p.2 with messages := dialog_messages })
          else p }

/-- Projection returned by get_user_dialogs: the four projected fields and
nothing else (in particular no messages field exists on this record). -/
structure DialogMeta where
  id : String
  start_time : Nat
  chat_mode : String
  model : String
  deriving DecidableEq

/-- Database.get_user_dialogs: user existence check, then a find on user_id
with a field projection.  The source applies no sort; results come back in
the collection's natural (insertion) order. -/
def get_user_dialogs (s : DBState) (user_id : Int) :
    Except DBError (List DialogMeta) :=
  match get_user_doc s user_id with
  | .error e => .error e
  | .ok _ =>
    .ok ((s.dialogs.filter fun p => p.2.user_id == user_id).map
      fun p => ⟨p.1, p.2.start_time, p.2.chat_mode, p.2.model⟩)

/-- Whether one user entry's current_dialog_id pointer, if set, references a
dialog present in the given collection and owned by that user. -/
def pointer_ok (dialogs : List (String × DialogDoc)) (p : Int × UserDoc) :
    Bool :=
  match p.2.current_dialog_id with
  | none => true
  | some did => dialogs.any fun q => decide (q.1 = did ∧ q.2.user_id = p.1)

/-- The referential invariant of the data model: every user's non-null
current_dialog_id references an existing dialog owned by that user. -/
def dbInvariant (s : DBState) : Prop :=
  ∀ p ∈ s.users, pointer_ok s.dialogs p = true

instance (s : DBState) : Decidable (dbInvariant s) :=
  List.decidableBAll _ s.users

/-- The mutating core operations of the session manager and store adapter,
as one step type for the invariant-preservation theorem. -/
inductive CoreOp where
  | addUser (user_id chat_id : Int) (username first_name last_name : String)
      (now : Nat)
  | newDialog (user_id : Int) (dialog_id : String) (now : Nat)
  | setMessages (user_id : Int) (dialog_messages : List DialogMessage)
      (dialog_id : Option String)
  | recordUsage (user_id : Int) (model : String)
      (n_input_tokens n_output_tokens : Int)
  deriving DecidableEq

def apply_op (cfg : Config) (s : DBState) : CoreOp → Except DBError DBState
  | .addUser uid cid un fn ln now => add_new_user cfg s uid cid un fn ln now
  | .newDialog uid did now => (start_new_dialog s uid did now).map Prod.snd
  | .setMessages uid msgs did => set_dialog_messages s uid msgs did
  | .recordUsage uid model ni no => update_n_used_tokens s uid model ni no

/-! ## Word-count lemmas -/

theorem countWordsAux_all_space {t : List Char}
    (h : ∀ c ∈ t, isPySpace c = true) (b : Bool) : countWordsAux b t = 0 := by
  induction t generalizing b with
  | nil => rfl
  | cons c cs ih =>
    have hc : isPySpace c = true := h c (by simp)
    simp only [countWordsAux, hc, if_true]
    exact ih (fun x hx => h x (by simp [hx])) false

theorem countWordsAux_append_space {t : List Char}
    (h : ∀ c ∈ t, isPySpace c = true) (l : List Char) :
    ∀ b, countWordsAux b (l ++ t) = countWordsAux b l := by
  induction l with
  | nil =>
    intro b
    simp only [List.nil_append]
    rw [countWordsAux_all_space h b]
    rfl
  | cons c cs ih =>
    intro b
    simp only [List.cons_append, countWordsAux, List.append_eq]
    split
    · exact ih false
    · rw [ih true]

theorem countWordsAux_dropWhile (l : List Char) :
    countWordsAux false (l.dropWhile isPySpace) = countWordsAux false l := by
  induction l with
  | nil => rfl
  | cons c cs ih =>
    by_cases hc : isPySpace c = true
    · simp [List.dropWhile_cons, hc, countWordsAux, ih]
    · simp [List.dropWhile_cons, hc, countWordsAux]

/-- Python str.strip never changes the word count of a string. -/
theorem countWords_pyStrip (s : String) : countWords (pyStrip s) = countWords s := by
  have hsplit : s.data.dropWhile isPySpace
      = ((s.data.dropWhile isPySpace).reverse.dropWhile isPySpace).reverse
        ++ ((s.data.dropWhile isPySpace).reverse.takeWhile isPySpace).reverse := by
    conv_lhs => rw [← List.reverse_reverse (s.data.dropWhile isPySpace),
      ← List.takeWhile_append_dropWhile
        (p := isPySpace) (l := (s.data.dropWhile isPySpace).reverse)]
    rw [List.reverse_append]
  have hsp : ∀ c ∈ ((s.data.dropWhile isPySpace).reverse.takeWhile
      isPySpace).reverse, isPySpace c = true := by
    intro c hc
    rw [List.mem_reverse] at hc
    exact List.mem_takeWhile_imp hc
  calc countWords (pyStrip s)
      = countWordsAux false
        (((s.data.dropWhile isPySpace).reverse.dropWhile isPySpace).reverse) := rfl
    _ = countWordsAux false
        (((s.data.dropWhile isPySpace).reverse.dropWhile isPySpace).reverse
          ++ ((s.data.dropWhile isPySpace).reverse.takeWhile
            isPySpace).reverse) := (countWordsAux_append_space hsp _ false).symm
    _ = countWordsAux false (s.data.dropWhile isPySpace) := by rw [← hsplit]
    _ = countWordsAux false s.data := countWordsAux_dropWhile s.data
    _ = countWords s := rfl

theorem countWordsAux_sep (t : List Char) (a : List Char) :
    ∀ b, countWordsAux b (a ++ ' ' :: t)
      = countWordsAux b a + countWordsAux false t := by
  induction a with
  | nil =>
    intro b
    have hs : isPySpace ' ' = true := rfl
    simp [countWordsAux, hs]
  | cons c cs ih =>
    intro b
    simp only [List.cons_append, countWordsAux, List.append_eq]
    split
    · exact ih false
    · rw [ih true, Nat.add_assoc]

theorem string_data_append (a b : String) : (a ++ b).data = a.data ++ b.data := by
  rfl

/-- Joining with single spaces makes the word count of the join the sum of the
word counts of the pieces. -/
theorem countWords_pyJoinSpace (ss : List String) :
    countWords (pyJoinSpace ss) = (ss.map countWords).sum := by
  induction ss with
  | nil => rfl
  | cons s rest ih =>
    cases rest with
    | nil => simp [pyJoinSpace]
    | cons s2 r2 =>
      have hdata : (s ++ " " ++ pyJoinSpace (s2 :: r2)).data
          = s.data ++ ' ' :: (pyJoinSpace (s2 :: r2)).data := by
        rw [string_data_append, string_data_append]
        have hsp : (" " : String).data = [' '] := rfl
        rw [hsp, List.append_assoc]
        rfl
      calc countWords (pyJoinSpace (s :: s2 :: r2))
          = countWordsAux false
            (s.data ++ ' ' :: (pyJoinSpace (s2 :: r2)).data) := by
            rw [pyJoinSpace, countWords, hdata]
        _ = countWordsAux false s.data
            + countWordsAux false (pyJoinSpace (s2 :: r2)).data :=
            countWordsAux_sep _ _ false
        _ = countWords s + (List.map countWords (s2 :: r2)).sum := by
            rw [← ih]; rfl
        _ = (List.map countWords (s :: s2 :: r2)).sum := by simp

/-! ## Prompt-construction lemmas -/

/-- Modelled from the spec, for comparison with the source-derived
generate_prompt_messages: one system entry with the mode's prompt text, then
per prior turn in chronological order a user entry with the user text and a
bot entry with the bot text, then a final user entry with the new message.
The bot entries carry role "model" (the claim's "assistant" role is refuted
separately). -/
def spec_prompt_sequence (P : String) (hist : List DialogMessage)
    (m : String) : List PromptMessage :=
  ⟨"system", P⟩ ::
    ((hist.flatMap fun t => [⟨"user", t.user⟩, ⟨"model", t.bot⟩])
      ++ [⟨"user", m⟩])

theorem foldl_prompt_append (hist : List DialogMessage) :
    ∀ init : List PromptMessage,
      hist.foldl
        (fun ms dm => ms ++ [⟨"user", dm.user⟩, ⟨"model", dm.bot⟩]) init
      = init ++ (hist.flatMap fun dm => [⟨"user", dm.user⟩, ⟨"model", dm.bot⟩]) := by
  induction hist with
  | nil => intro init; simp
  | cons dm rest ih =>
    intro init
    simp only [List.foldl_cons, List.flatMap_cons]
    rw [ih]
    simp [List.append_assoc]

theorem generate_prompt_messages_eq_spec (P : String)
    (hist : List DialogMessage) (m : String) :
    generate_prompt_messages P hist m = spec_prompt_sequence P hist m := by
  show (hist.foldl
      (fun ms dm => ms ++ [⟨"user", dm.user⟩, ⟨"model", dm.bot⟩])
      [⟨"system", P⟩]) ++ [⟨"user", m⟩] = spec_prompt_sequence P hist m
  rw [foldl_prompt_append]
  simp [spec_prompt_sequence]

/-- Modelled from the spec: the input token approximation is the total number
of whitespace-delimited words across the contents of all prompt entries. -/
def spec_input_token_count (entries : List PromptMessage) : Nat :=
  (entries.map fun pm => countWords pm.content).sum

theorem prompt_input_tokens_eq_spec (P : String)
    (dms : List DialogMessage) (m : String) :
    prompt_input_tokens P dms m
      = spec_input_token_count (generate_prompt_messages P dms m) := by
  unfold prompt_input_tokens spec_input_token_count
  rw [countWords_pyJoinSpace, List.map_map]
  rfl

/-! ## Streaming-loop lemmas -/

theorem stream_loop_events_mem (nIn : Nat) (chunks : List String) :
    ∀ (acc : String) (n : Option Nat),
      ∀ e ∈ (stream_loop nIn acc n chunks).events,
        e.tag = "not_finished" ∧ e.n_input_tokens = nIn
          ∧ e.n_output_tokens = countWords e.answer ∧ e.cost = 0 := by
  induction chunks with
  | nil =>
    intro acc n e he
    simp [stream_loop] at he
  | cons c rest ih =>
    intro acc n e he
    by_cases hc : c = ""
    · rw [stream_loop, if_pos hc] at he
      exact ih acc n e he
    · rw [stream_loop, if_neg hc] at he
      simp only [List.mem_cons] at he
      rcases he with he | he
      · subst he
        exact ⟨rfl, rfl, rfl, rfl⟩
      · exact ih _ _ e he

theorem stream_loop_nil_events (nIn : Nat) (chunks : List String) :
    ∀ (acc : String) (n : Option Nat),
      (stream_loop nIn acc n chunks).events = [] →
        stream_loop nIn acc n chunks = ⟨acc, n, []⟩ := by
  induction chunks with
  | nil => intro acc n _; rfl
  | cons c rest ih =>
    intro acc n h
    by_cases hc : c = ""
    · rw [stream_loop, if_pos hc] at h ⊢
      exact ih acc n h
    · rw [stream_loop, if_neg hc] at h
      simp at h

theorem stream_loop_getLast (nIn : Nat) (chunks : List String) :
    ∀ (acc : String) (n : Option Nat) (e : StreamEvent),
      (stream_loop nIn acc n chunks).events.getLast? = some e →
        e.answer = (stream_loop nIn acc n chunks).answer := by
  induction chunks with
  | nil =>
    intro acc n e h
    simp [stream_loop] at h
  | cons c rest ih =>
    intro acc n e h
    by_cases hc : c = ""
    · rw [stream_loop, if_pos hc] at h ⊢
      exact ih acc n e h
    · rw [stream_loop, if_neg hc] at h ⊢
      rcases hre : (stream_loop nIn (acc ++ c)
          (some (countWords (acc ++ c))) rest).events with _ | ⟨x, xs⟩
      · simp only [hre, List.getLast?_singleton, Option.some.injEq] at h
        have hr := stream_loop_nil_events nIn rest (acc ++ c)
          (some (countWords (acc ++ c))) hre
        show e.answer = (stream_loop nIn (acc ++ c)
          (some (countWords (acc ++ c))) rest).answer
        rw [hr, ← h]
      · simp only [hre, List.getLast?_cons_cons] at h
        show e.answer = (stream_loop nIn (acc ++ c)
          (some (countWords (acc ++ c))) rest).answer
        exact ih (acc ++ c) (some (countWords (acc ++ c))) e
          (by rw [hre]; exact h)

theorem stream_loop_nOut (nIn : Nat) (chunks : List String) :
    ∀ (acc : String) (n : Option Nat),
      (∀ k, n = some k → k = countWords acc) →
      ∀ k, (stream_loop nIn acc n chunks).n_output_tokens = some k →
        k = countWords (stream_loop nIn acc n chunks).answer := by
  induction chunks with
  | nil =>
    intro acc n hn k hk
    exact hn k hk
  | cons c rest ih =>
    intro acc n hn k hk
    by_cases hc : c = ""
    · rw [stream_loop, if_pos hc] at hk ⊢
      exact ih acc n hn k hk
    · rw [stream_loop, if_neg hc] at hk ⊢
      exact ih (acc ++ c) (some (countWords (acc ++ c)))
        (fun k2 hk2 => by injection hk2 with hk2; rw [hk2]) k hk

/-! ## Invariant helper lemmas -/

theorem pointer_ok_append (dialogs l2 : List (String × DialogDoc))
    (p : Int × UserDoc) (h : pointer_ok dialogs p = true) :
    pointer_ok (dialogs ++ l2) p = true := by
  unfold pointer_ok at h ⊢
  cases hcd : p.2.current_dialog_id with
  | none => rfl
  | some did =>
    rw [hcd] at h
    show (dialogs ++ l2).any
      (fun q => decide (q.1 = did ∧ q.2.user_id = p.1)) = true
    have h2 : dialogs.any
        (fun q => decide (q.1 = did ∧ q.2.user_id = p.1)) = true := h
    rw [List.any_append, h2]
    rfl

theorem pointer_ok_map_preserve (dialogs : List (String × DialogDoc))
    (g : (String × DialogDoc) → (String × DialogDoc))
    (hg : ∀ q, (g q).1 = q.1 ∧ (g q).2.user_id = q.2.user_id)
    (p : Int × UserDoc) :
    pointer_ok (dialogs.map g) p = pointer_ok dialogs p := by
  unfold pointer_ok
  cases p.2.current_dialog_id with
  | none => rfl
  | some did =>
    show (dialogs.map g).any (fun q => decide (q.1 = did ∧ q.2.user_id = p.1))
      = dialogs.any (fun q => decide (q.1 = did ∧ q.2.user_id = p.1))
    rw [List.any_map]
    exact list_any_ext fun q _ => by
      simp only [Function.comp_apply]
      exact decide_eq_decide.mpr (by rw [(hg q).1, (hg q).2])

theorem pointer_ok_user_congr (dialogs : List (String × DialogDoc))
    (p p' : Int × UserDoc) (h1 : p'.1 = p.1)
    (h2 : p'.2.current_dialog_id = p.2.current_dialog_id) :
    pointer_ok dialogs p' = pointer_ok dialogs p := by
  unfold pointer_ok
  rw [h2]
  cases p.2.current_dialog_id with
  | none => rfl
  | some did =>
    show dialogs.any (fun q => decide (q.1 = did ∧ q.2.user_id = p'.1))
      = dialogs.any (fun q => decide (q.1 = did ∧ q.2.user_id = p.1))
    exact list_any_ext fun q _ => decide_eq_decide.mpr (by rw [h1])

/-- Rewriting user documents in a way that never touches current_dialog_id
preserves the referential invariant. -/
theorem dbInvariant_map_users (s : DBState) (uid : Int) (f : UserDoc → UserDoc)
    (hf : ∀ v, (f v).current_dialog_id = v.current_dialog_id)
    (hinv : dbInvariant s) :
    dbInvariant { s with users := alist_map_at uid f s.users } := by
  intro p hp
  rcases List.mem_map.mp hp with ⟨q, hq, hgq⟩
  have h1 : p.1 = q.1 := by
    rw [← hgq]; split <;> rfl
  have h2 : p.2.current_dialog_id = q.2.current_dialog_id := by
    rw [← hgq]; split
    · exact hf q.2
    · rfl
  rw [show ({ s with users := alist_map_at uid f s.users } : DBState).dialogs
    = s.dialogs from rfl]
  rw [pointer_ok_user_congr s.dialogs q p h1 h2]
  exact hinv q hq

/-- Rewriting dialogs in a way that preserves every dialog's id and owner
preserves the referential invariant. -/
theorem dbInvariant_map_dialogs (s : DBState)
    (g : (String × DialogDoc) → (String × DialogDoc))
    (hg : ∀ q, (g q).1 = q.1 ∧ (g q).2.user_id = q.2.user_id)
    (hinv : dbInvariant s) :
    dbInvariant { s with dialogs := s.dialogs.map g } := by
  intro p hp
  rw [show ({ s with dialogs := s.dialogs.map g } : DBState).dialogs
    = s.dialogs.map g from rfl]
  rw [pointer_ok_map_preserve s.dialogs g hg p]
  exact hinv p hp

/-! ## Fixture configuration and states for the concrete theorems -/

def gm : String := "gemini-1.5-flash"

def cfg0 : Config := ⟨[("assistant", "P")], [gm]⟩

def user7 : UserDoc :=
  ⟨100, "u", "f", "l", 0, 0, none, "assistant", gm, [(gm, 5, 3)], 0, 0⟩

/-- One existing user (id 7), empty dialog collection. -/
def stA : DBState := ⟨[(7, user7)], []⟩

def dlg1 : DialogDoc := ⟨7, "assistant", 1, gm, [⟨"x", "y"⟩]⟩

def dlg2 : DialogDoc := ⟨7, "assistant", 2, gm, []⟩

/-- One existing user (id 7) with two dialogs inserted in ascending
start_time order. -/
def stB : DBState := ⟨[(7, user7)], [("d1", dlg1), ("d2", dlg2)]⟩

/-- Whether a dialog-metadata listing is ordered by start_time descending. -/
def sorted_by_start_time_desc : List DialogMeta → Bool
  | [] => true
  | [_] => true
  | a :: b :: rest =>
    decide (b.start_time ≤ a.start_time)
      && sorted_by_start_time_desc (b :: rest)

/-! ## Claim C1 — prompt construction sequence -/

/-- C1 counterexample: with mode "assistant" mapped to prompt "P", one prior
turn (u1, b1) and new message m, prompt construction tags the bot-text entry
with role "model", so the claimed sequence with an "assistant"-role entry is
not what is returned. -/
theorem C1_counterexample :
    prompt_messages_for_mode cfg0 "m" [⟨"u1", "b1"⟩] "assistant"
        = some [⟨"system", "P"⟩, ⟨"user", "u1"⟩, ⟨"model", "b1"⟩,
          ⟨"user", "m"⟩]
      ∧ prompt_messages_for_mode cfg0 "m" [⟨"u1", "b1"⟩] "assistant"
        ≠ some [⟨"system", "P"⟩, ⟨"user", "u1"⟩, ⟨"assistant", "b1"⟩,
          ⟨"user", "m"⟩] := by
  constructor <;> decide

/-- C1 (amended): for every chat mode present in the configured mode table
with system prompt P, every history and every new message, prompt
construction returns exactly one system-role entry with P, then for each
prior turn in original chronological order a user-role entry with the turn's
user text followed by a model-role entry (the backend's name for the
assistant side) with the turn's bot text, and finally a user-role entry with
the new message. -/
theorem C1_prompt_construction (cfg : Config) (P m mode : String)
    (hist : List DialogMessage)
    (h : alist_find mode cfg.chat_modes = some P) :
    prompt_messages_for_mode cfg m hist mode
      = some (spec_prompt_sequence P hist m) := by
  unfold prompt_messages_for_mode
  rw [h]
  simp [generate_prompt_messages_eq_spec]

theorem C1_witness :
    prompt_messages_for_mode cfg0 "m3" [⟨"u1", "b1"⟩, ⟨"u2", "b2"⟩]
        "assistant"
      = some (spec_prompt_sequence "P" [⟨"u1", "b1"⟩, ⟨"u2", "b2"⟩] "m3") :=
  C1_prompt_construction cfg0 "P" "m3" "assistant"
    [⟨"u1", "b1"⟩, ⟨"u2", "b2"⟩] (by decide)

/-! ## Claim C8 — unsupported chat mode fails before any backend call -/

/-- C8: for every chat-mode name not present in the configured mode table,
both the one-shot and the streaming completion operations fail with the
unsupported-mode validation error, whatever the backend would have answered —
so the failure happens during prompt construction, before any backend call. -/
theorem C8_unsupported_mode (cfg : Config) (m mode : String)
    (dms : List DialogMessage)
    (h : alist_find mode cfg.chat_modes = none) :
    (∀ rawAnswer, send_message cfg m dms mode rawAnswer
        = Except.error (.valueError
          ("Chat mode " ++ mode ++ " is not supported")))
      ∧ (∀ chunks, send_message_stream cfg m dms mode chunks
        = Except.error (.valueError
          ("Chat mode " ++ mode ++ " is not supported"))) := by
  constructor
  · intro rawAnswer
    unfold send_message
    rw [h]
  · intro chunks
    unfold send_message_stream
    rw [h]

theorem C8_witness :
    send_message cfg0 "m" [] "nonexistent_mode" "backend answer"
        = Except.error (.valueError
          ("Chat mode " ++ "nonexistent_mode" ++ " is not supported"))
      ∧ send_message_stream cfg0 "m" [] "nonexistent_mode" ["chunk"]
        = Except.error (.valueError
          ("Chat mode " ++ "nonexistent_mode" ++ " is not supported")) :=
  ⟨(C8_unsupported_mode cfg0 "m" "nonexistent_mode" [] (by decide)).1
      "backend answer",
    (C8_unsupported_mode cfg0 "m" "nonexistent_mode" [] (by decide)).2
      ["chunk"]⟩

/-! ## Claim C4 — streaming event structure -/

/-- C4 counterexample: with backend chunks "a" then "b", the not_finished
events carry the accumulated texts "a" and "ab"; concatenating the texts of
all not_finished events gives "aab", which trimmed is still "aab" and is not
the finished event's answer "ab". -/
theorem C4_counterexample :
    send_message_stream cfg0 "m" [] "assistant" ["a", "b"]
        = Except.ok [⟨"not_finished", "a", 2, 1, 0⟩,
          ⟨"not_finished", "ab", 2, 1, 0⟩, ⟨"finished", "ab", 2, 1, 0⟩]
      ∧ pyStrip ("a" ++ "ab") ≠ "ab" :=
  ⟨rfl, by decide⟩

/-- C4 (amended): for every streaming invocation that terminates normally,
the delivered events are a nonempty block of not_finished events followed by
exactly one terminal finished event; each not_finished event carries the
accumulated answer so far, so trimming leading and trailing whitespace from
the text of the last not_finished event (rather than from the concatenation
of all of them) yields exactly the answer text of the finished event. -/
theorem C4_stream_terminal (cfg : Config) (m mode : String)
    (dms : List DialogMessage) (chunks : List String)
    (evs : List StreamEvent)
    (h : send_message_stream cfg m dms mode chunks = Except.ok evs) :
    ∃ pre fin, evs = pre ++ [fin] ∧ fin.tag = "finished"
      ∧ (∀ e ∈ pre, e.tag = "not_finished")
      ∧ ∃ last, pre.getLast? = some last
        ∧ pyStrip last.answer = fin.answer := by
  unfold send_message_stream at h
  split at h
  · cases h
  · rename_i promptStart hcm
    unfold finish_stream at h
    split at h
    · cases h
    · rename_i k hk
      injection h with h
      refine ⟨(stream_loop (prompt_input_tokens promptStart dms m)
          "" none chunks).events,
        ⟨"finished", postprocess_answer
          (stream_loop (prompt_input_tokens promptStart dms m)
            "" none chunks).answer,
          prompt_input_tokens promptStart dms m, k, 0⟩,
        h.symm, rfl, ?_, ?_⟩
      · intro e he
        exact (stream_loop_events_mem _ chunks "" none e he).1
      · have hne : (stream_loop (prompt_input_tokens promptStart dms m)
            "" none chunks).events ≠ [] := by
          intro hnil
          have hr := stream_loop_nil_events _ chunks "" none hnil
          rw [hr] at hk
          cases hk
        have hlast := List.getLast?_eq_getLast _ hne
        refine ⟨_, hlast, ?_⟩
        have hans := stream_loop_getLast
          (prompt_input_tokens promptStart dms m) chunks "" none _ hlast
        rw [hans]
        rfl

theorem C4_witness :
    ∃ pre fin,
      ([⟨"not_finished", "a", 2, 1, 0⟩, ⟨"not_finished", "ab", 2, 1, 0⟩,
          ⟨"finished", "ab", 2, 1, 0⟩] : List StreamEvent) = pre ++ [fin]
        ∧ fin.tag = "finished"
        ∧ (∀ e ∈ pre, e.tag = "not_finished")
        ∧ ∃ last, pre.getLast? = some last
          ∧ pyStrip last.answer = fin.answer :=
  C4_stream_terminal cfg0 "m" "assistant" [] ["a", "b"] _ rfl

/-! ## Claim C7 — word-count token approximation and zero cost -/

/-- C7: for every successful completion call, one-shot or streaming, the
reported input token count is the number of whitespace-delimited words across
the contents of all prompt entries, the reported output token count is the
number of whitespace-delimited words in the accumulated answer text carried
by the result or event, and the cost placeholder is always zero. -/
theorem C7_token_accounting (cfg : Config) (m mode rawAnswer promptStart : String)
    (dms : List DialogMessage) (chunks : List String)
    (h : alist_find mode cfg.chat_modes = some promptStart) :
    send_message cfg m dms mode rawAnswer
        = Except.ok ⟨pyStrip rawAnswer,
            spec_input_token_count (generate_prompt_messages promptStart dms m),
            countWords rawAnswer, 0⟩
      ∧ ∀ evs, send_message_stream cfg m dms mode chunks = Except.ok evs →
          ∀ e ∈ evs,
            e.n_input_tokens = spec_input_token_count
                (generate_prompt_messages promptStart dms m)
              ∧ e.n_output_tokens = countWords e.answer
              ∧ e.cost = 0 := by
  constructor
  · unfold send_message
    rw [h]
    show Except.ok (⟨postprocess_answer rawAnswer,
        prompt_input_tokens promptStart dms m, countWords rawAnswer, 0⟩ :
          CompletionResult)
      = Except.ok ⟨pyStrip rawAnswer,
          spec_input_token_count (generate_prompt_messages promptStart dms m),
          countWords rawAnswer, 0⟩
    rw [prompt_input_tokens_eq_spec]
    rfl
  · intro evs hs e he
    unfold send_message_stream at hs
    split at hs
    · cases hs
    · rename_i P2 hcm2
      rw [h] at hcm2
      injection hcm2 with hP
      subst hP
      unfold finish_stream at hs
      split at hs
      · cases hs
      · rename_i k hk
        injection hs with hs
        subst hs
        rw [List.mem_append] at he
        rcases he with he | he
        · have h4 := stream_loop_events_mem
            (prompt_input_tokens promptStart dms m) chunks "" none e he
          exact ⟨by rw [h4.2.1, prompt_input_tokens_eq_spec],
            h4.2.2.1, h4.2.2.2⟩
        · simp only [List.mem_singleton] at he
          subst he
          have hout := stream_loop_nOut
            (prompt_input_tokens promptStart dms m) chunks "" none
            (fun k2 hk2 => by cases hk2) k hk
          refine ⟨prompt_input_tokens_eq_spec promptStart dms m, ?_, rfl⟩
          show k = countWords (pyStrip
            (stream_loop (prompt_input_tokens promptStart dms m)
              "" none chunks).answer)
          rw [countWords_pyStrip]
          exact hout

theorem C7_witness :
    send_message cfg0 "hi there" [] "assistant" " ans "
        = Except.ok ⟨pyStrip " ans ",
            spec_input_token_count
              (generate_prompt_messages "P" [] "hi there"),
            countWords " ans ", 0⟩
      ∧ ((⟨"finished", "ok", 3, 1, 0⟩ : StreamEvent).n_input_tokens
            = spec_input_token_count
              (generate_prompt_messages "P" [] "hi there")
          ∧ (⟨"finished", "ok", 3, 1, 0⟩ : StreamEvent).n_output_tokens
            = countWords (⟨"finished", "ok", 3, 1, 0⟩ : StreamEvent).answer
          ∧ (⟨"finished", "ok", 3, 1, 0⟩ : StreamEvent).cost = 0) :=
  ⟨(C7_token_accounting cfg0 "hi there" "assistant" " ans " "P" [] ["ok"]
      (by decide)).1,
    (C7_token_accounting cfg0 "hi there" "assistant" " ans " "P" [] ["ok"]
      (by decide)).2
      [⟨"not_finished", "ok", 3, 1, 0⟩, ⟨"finished", "ok", 3, 1, 0⟩] rfl
      ⟨"finished", "ok", 3, 1, 0⟩ (by decide)⟩

theorem alist_find_append_singleton_self [DecidableEq α] {k : α}
    {l : List (α × β)} (v : β) (h : alist_find k l = none) :
    alist_find k (l ++ [(k, v)]) = some v := by
  rw [alist_find_append_of_none _ h, alist_find_singleton]

theorem check_append_singleton (s : DBState) (uid : Int) (d : UserDoc)
    (h : alist_find uid s.users = none) :
    check_if_user_exists { s with users := s.users ++ [(uid, d)] } uid
      = true := by
  unfold check_if_user_exists
  show (alist_find uid (s.users ++ [(uid, d)])).isSome = true
  rw [alist_find_append_singleton_self _ h]
  rfl

/-! ## Claim C2 — replace_messages on a missing dialog -/

/-- C2 counterexample: user 7 exists, the dialog collection is empty, yet
replace_messages with the explicit unknown dialog id "missing" returns
successfully with the store unchanged — the missing-dialog case is silently
defaulted to a no-op instead of surfacing a NotFound error. -/
theorem C2_counterexample :
    check_if_user_exists stA 7 = true
      ∧ alist_find "missing" stA.dialogs = none
      ∧ set_dialog_messages stA 7 [⟨"u", "b"⟩] (some "missing")
        = Except.ok stA :=
  ⟨by decide, by decide, rfl⟩

/-- C2 (amended): replace_messages with an explicit dialog id surfaces an
error only for a missing user (and for an empty id string, which the source's
falsiness test rejects); when the user exists and the non-empty dialog id
matches no dialog owned by that user, the underlying update matches no
document and the call silently succeeds leaving the store unchanged. -/
theorem C2_replace_messages_silent_noop (s : DBState) (uid : Int)
    (u : UserDoc) (msgs : List DialogMessage) (did : String)
    (hu : alist_find uid s.users = some u) (hne : did ≠ "")
    (hd : ∀ p ∈ s.dialogs, ¬(p.1 = did ∧ p.2.user_id = uid)) :
    set_dialog_messages s uid msgs (some did) = Except.ok s := by
  unfold set_dialog_messages get_user_doc
  rw [hu]
  show (if did = "" then
      Except.error (DBError.valueError "No current dialog found")
    else Except.ok { s with dialogs := s.dialogs.map fun p =>
      if p.1 = did ∧ p.2.user_id = uid then
        (p.1, { p.2 with messages := msgs })
      else p }) = Except.ok s
  rw [if_neg hne, list_map_id_of fun p hp => if_neg (hd p hp)]

theorem C2_witness :
    set_dialog_messages stA 7 [] (some "zzz") = Except.ok stA :=
  C2_replace_messages_silent_noop stA 7 user7 [] "zzz"
    (by decide) (by decide) (by decide)

/-! ## Claim C3 — validation of usage counts -/

/-- C3 counterexample: user 7 has stored counters (5, 3) for the model; a
call with the negative integer counts (-1, -2) is not rejected as a
validation error, and it changes the stored counters to (4, 1). -/
theorem C3_counterexample :
    user_model_tokens stA 7 gm = some (5, 3)
      ∧ Except.map (fun s => user_model_tokens s 7 gm)
          (update_n_used_tokens stA 7 gm (-1) (-2))
        = Except.ok (some (4, 1)) :=
  ⟨by decide, rfl⟩

/-- C3 (amended): record_usage validates only that both counts are integers
(the isinstance check of the source); for an existing user every integer
pair, including negative counts, is accepted without error and added onto the
stored counters. -/
theorem C3_accepts_any_integers (s : DBState) (uid : Int) (u : UserDoc)
    (model : String) (a b : Int)
    (hu : alist_find uid s.users = some u) :
    ∃ s2, update_n_used_tokens s uid model a b = Except.ok s2 := by
  unfold update_n_used_tokens get_user_doc set_user_tokens
    check_if_user_exists
  rw [hu]
  exact ⟨_, rfl⟩

theorem C3_witness :
    ∃ s2, update_n_used_tokens stA 7 gm (-5) (-7) = Except.ok s2 :=
  C3_accepts_any_integers stA 7 user7 gm (-5) (-7) (by decide)

/-! ## Claim C5 — idempotent user creation -/

/-- C5: ensure_user is idempotent: after any successful add_new_user call, a
second call with the same user id — whatever profile fields it carries — is a
no-op that raises no error and leaves every stored field, in particular the
mutable ones, exactly as the first call left them. -/
theorem C5_ensure_user_idempotent (cfg : Config) (s s1 : DBState)
    (uid c1 c2 : Int) (un1 fn1 ln1 un2 fn2 ln2 : String) (t1 t2 : Nat)
    (h : add_new_user cfg s uid c1 un1 fn1 ln1 t1 = Except.ok s1) :
    add_new_user cfg s1 uid c2 un2 fn2 ln2 t2 = Except.ok s1 := by
  unfold add_new_user at h ⊢
  by_cases he : check_if_user_exists s uid
  · rw [if_pos he] at h
    injection h with h
    subst h
    rw [if_pos he]
  · rw [if_neg he] at h
    cases hm : cfg.available_text_models with
    | nil =>
      rw [hm] at h
      cases h
    | cons m0 ms =>
      rw [hm] at h
      injection h with hs1
      have hnone : alist_find uid s.users = none := by
        unfold check_if_user_exists at he
        cases hfind : alist_find uid s.users with
        | none => rfl
        | some v =>
          rw [hfind] at he
          simp at he
      have hex : check_if_user_exists s1 uid = true := by
        rw [← hs1]
        exact check_append_singleton s uid _ hnone
      rw [if_pos hex]

def st5 : DBState :=
  ⟨[(7, ⟨100, "", "", "", 0, 0, none, "assistant", gm, [], 0, 0⟩)], []⟩

theorem C5_witness :
    add_new_user cfg0 st5 7 200 "a" "b" "c" 5 = Except.ok st5 :=
  C5_ensure_user_idempotent cfg0 ⟨[], []⟩ st5 7 100 200 "" "" "" "a" "b" "c"
    0 5 rfl

/-! ## Claim C6 — list_dialogs metadata and ordering -/

/-- C6 counterexample: user 7 owns dialogs d1 (start_time 1) and d2
(start_time 2), inserted in that order; get_user_dialogs returns them in
insertion order, which is ascending start_time — not ordered by start_time
descending as claimed, since the source applies no sort. -/
theorem C6_counterexample :
    get_user_dialogs stB 7
        = Except.ok [⟨"d1", 1, "assistant", gm⟩, ⟨"d2", 2, "assistant", gm⟩]
      ∧ sorted_by_start_time_desc
          [⟨"d1", 1, "assistant", gm⟩, ⟨"d2", 2, "assistant", gm⟩]
        = false :=
  ⟨rfl, by decide⟩

/-- C6 (amended): for every existing user, list_dialogs returns exactly one
metadata record — the four projected fields, with no message bodies — per
dialog owned by that user, in the store's natural (insertion) order; no
start_time-descending ordering is applied. -/
theorem C6_list_dialogs_metadata (s : DBState) (uid : Int)
    (l : List DialogMeta) (h : get_user_dialogs s uid = Except.ok l) :
    l.map (fun meta => meta.id)
        = (s.dialogs.filter fun p => p.2.user_id == uid).map Prod.fst
      ∧ ∀ meta ∈ l, ∃ d, (meta.id, d) ∈ s.dialogs ∧ d.user_id = uid
        ∧ meta.start_time = d.start_time ∧ meta.chat_mode = d.chat_mode
        ∧ meta.model = d.model := by
  unfold get_user_dialogs get_user_doc at h
  cases hu : alist_find uid s.users with
  | none =>
    rw [hu] at h
    cases h
  | some u =>
    rw [hu] at h
    injection h with h
    subst h
    constructor
    · rw [List.map_map]
      rfl
    · intro meta hmeta
      rcases List.mem_map.mp hmeta with ⟨p, hp, hproj⟩
      rcases List.mem_filter.mp hp with ⟨hpd, hpu⟩
      subst hproj
      refine ⟨p.2, ?_, eq_of_beq hpu, rfl, rfl, rfl⟩
      simpa using hpd

theorem C6_witness :
    ([⟨"d1", 1, "assistant", gm⟩, ⟨"d2", 2, "assistant", gm⟩] :
        List DialogMeta).map (fun meta => meta.id)
      = (stB.dialogs.filter fun p => p.2.user_id == 7).map Prod.fst :=
  (C6_list_dialogs_metadata stB 7
    [⟨"d1", 1, "assistant", gm⟩, ⟨"d2", 2, "assistant", gm⟩] rfl).1

/-! ## Claim C9 — additive usage accounting -/

theorem update_tokens_fresh (s : DBState) (uid : Int) (u : UserDoc)
    (model : String) (a b : Int)
    (hu : alist_find uid s.users = some u)
    (hm : alist_find model u.n_used_tokens = none) :
    update_n_used_tokens s uid model a b
      = Except.ok { s with
          users := alist_map_at uid
            (fun v => { v with
              n_used_tokens := u.n_used_tokens ++ [(model, a, b)] })
            s.users } := by
  unfold update_n_used_tokens get_user_doc set_user_tokens
    check_if_user_exists
  rw [hu]
  dsimp only
  rw [hm]
  rfl

theorem update_tokens_existing (s : DBState) (uid : Int) (u : UserDoc)
    (model : String) (a b x y : Int)
    (hu : alist_find uid s.users = some u)
    (hm : alist_find model u.n_used_tokens = some (x, y)) :
    update_n_used_tokens s uid model a b
      = Except.ok { s with
          users := alist_map_at uid
            (fun v => { v with
              n_used_tokens := alist_map_at model
                (fun c => (c.1 + a, c.2 + b)) u.n_used_tokens })
            s.users } := by
  unfold update_n_used_tokens get_user_doc set_user_tokens
    check_if_user_exists
  rw [hu]
  dsimp only
  rw [hm]
  rfl

theorem user_model_tokens_map_at (s : DBState) (uid : Int) (model : String)
    (f : UserDoc → UserDoc) (u : UserDoc)
    (hu : alist_find uid s.users = some u) :
    user_model_tokens { s with users := alist_map_at uid f s.users }
        uid model
      = alist_find model (f u).n_used_tokens := by
  unfold user_model_tokens
  dsimp only
  rw [alist_find_map_at_self, hu]
  rfl

/-- C9: record_usage with non-negative counts is additive on the per-model
counters: starting from a user with no counters for the model, a first call
with counts (a1, b1) initializes the model's counters to exactly (a1, b1),
and a second call with counts (a2, b2) leaves (a1 + a2, b1 + b2); the stored
counters never decrease under such calls. -/
theorem C9_usage_additive (s : DBState) (uid : Int) (u : UserDoc)
    (model : String) (a1 b1 a2 b2 : Int) (h1 : 0 ≤ a2) (h2 : 0 ≤ b2)
    (hu : alist_find uid s.users = some u)
    (hm : alist_find model u.n_used_tokens = none) :
    ∃ s1 s2, update_n_used_tokens s uid model a1 b1 = Except.ok s1
      ∧ user_model_tokens s1 uid model = some (a1, b1)
      ∧ update_n_used_tokens s1 uid model a2 b2 = Except.ok s2
      ∧ user_model_tokens s2 uid model = some (a1 + a2, b1 + b2)
      ∧ a1 ≤ a1 + a2 ∧ b1 ≤ b1 + b2 := by
  have hu1 : alist_find uid ({ s with
      users := alist_map_at uid
        (fun v => { v with
          n_used_tokens := u.n_used_tokens ++ [(model, a1, b1)] })
        s.users } : DBState).users
      = some { u with n_used_tokens :=
        u.n_used_tokens ++ [(model, a1, b1)] } := by
    show alist_find uid (alist_map_at uid
      (fun v => { v with
        n_used_tokens := u.n_used_tokens ++ [(model, a1, b1)] })
      s.users) = _
    rw [alist_find_map_at_self, hu]
    rfl
  have hm1 : alist_find model ({ u with n_used_tokens :=
      u.n_used_tokens ++ [(model, a1, b1)] } : UserDoc).n_used_tokens
      = some (a1, b1) := alist_find_append_singleton_self _ hm
  refine ⟨_, _, update_tokens_fresh s uid u model a1 b1 hu hm, ?_,
    update_tokens_existing _ uid _ model a2 b2 a1 b1 hu1 hm1, ?_,
    le_add_of_nonneg_right h1, le_add_of_nonneg_right h2⟩
  · rw [user_model_tokens_map_at s uid model _ u hu]
    dsimp only
    exact alist_find_append_singleton_self _ hm
  · rw [user_model_tokens_map_at _ uid model _ _ hu1]
    dsimp only
    rw [alist_find_map_at_self]
    rw [show alist_find model (u.n_used_tokens ++ [(model, a1, b1)])
      = some (a1, b1) from alist_find_append_singleton_self _ hm]
    rfl

def user8 : UserDoc := ⟨100, "", "", "", 0, 0, none, "assistant", gm, [], 0, 0⟩

def stF : DBState := ⟨[(8, user8)], []⟩

theorem C9_witness :
    ∃ s1 s2, update_n_used_tokens stF 8 gm 5 3 = Except.ok s1
      ∧ user_model_tokens s1 8 gm = some (5, 3)
      ∧ update_n_used_tokens s1 8 gm 2 1 = Except.ok s2
      ∧ user_model_tokens s2 8 gm = some (5 + 2, 3 + 1)
      ∧ (5 : Int) ≤ 5 + 2 ∧ (3 : Int) ≤ 3 + 1 :=
  C9_usage_additive stF 8 user8 gm 5 3 2 1 (by decide) (by decide)
    (by decide) (by decide)

/-! ## Claim C10 — referential integrity of current_dialog_id -/

theorem set_dialog_messages_ok_shape (s : DBState) (uid : Int)
    (msgs : List DialogMessage) (did? : Option String) (s2 : DBState)
    (h : set_dialog_messages s uid msgs did? = Except.ok s2) :
    ∃ d, s2 = { s with dialogs := s.dialogs.map fun p =>
      if p.1 = d ∧ p.2.user_id = uid then
        (p.1, { p.2 with messages := msgs })
      else p } := by
  unfold set_dialog_messages get_user_doc at h
  cases hu : alist_find uid s.users with
  | none =>
    rw [hu] at h
    cases h
  | some u =>
    rw [hu] at h
    dsimp only at h
    rcases hdd : (match did? with
        | some d => some d
        | none => u.current_dialog_id) with _ | dstr
    · rw [hdd] at h
      cases h
    · rw [hdd] at h
      dsimp only at h
      by_cases hne : dstr = ""
      · rw [if_pos hne] at h
        cases h
      · rw [if_neg hne] at h
        injection h with h
        exact ⟨dstr, h.symm⟩

theorem update_tokens_ok_shape (s : DBState) (uid : Int) (model : String)
    (a b : Int) (s2 : DBState)
    (h : update_n_used_tokens s uid model a b = Except.ok s2) :
    ∃ toks, s2 = { s with
      users := alist_map_at uid
        (fun v => { v with n_used_tokens := toks }) s.users } := by
  unfold update_n_used_tokens get_user_doc set_user_tokens
    check_if_user_exists at h
  cases hu : alist_find uid s.users with
  | none =>
    rw [hu] at h
    cases h
  | some u =>
    rw [hu] at h
    dsimp only at h
    simp only [Option.isSome_some, if_true] at h
    injection h with h
    exact ⟨_, h.symm⟩

theorem start_new_dialog_ok (s : DBState) (uid : Int) (did : String)
    (now : Nat) (r : String × DBState)
    (h : start_new_dialog s uid did now = Except.ok r) :
    ∃ u, alist_find uid s.users = some u
      ∧ alist_find did s.dialogs = none
      ∧ r = (did, { s with
          users := alist_map_at uid
            (fun v => { v with current_dialog_id := some did }) s.users,
          dialogs := s.dialogs
            ++ [(did, ⟨uid, u.current_chat_mode, now,
                  u.current_model, []⟩)] }) := by
  unfold start_new_dialog at h
  cases hu : alist_find uid s.users with
  | none =>
    rw [hu] at h
    cases h
  | some u =>
    rw [hu] at h
    dsimp only at h
    by_cases hdup : (alist_find did s.dialogs).isSome
    · rw [if_pos hdup] at h
      cases h
    · rw [if_neg hdup] at h
      injection h with h
      refine ⟨u, rfl, ?_, h.symm⟩
      cases hfind : alist_find did s.dialogs with
      | none => rfl
      | some x =>
        rw [hfind] at hdup
        simp at hdup

/-- C10: every mutating core operation preserves the referential invariant
that a user's non-null current_dialog_id references an existing dialog owned
by that same user; a newly created user starts with a null current dialog
pointer, and a successful start_new_dialog leaves the new dialog stored,
owned by the user, with the user's pointer set to it. -/
theorem C10_referential_invariant (cfg : Config) (s s2 : DBState)
    (op : CoreOp) (hinv : dbInvariant s)
    (hop : apply_op cfg s op = Except.ok s2) :
    dbInvariant s2
      ∧ (∀ uid cid un fn ln now, op = CoreOp.addUser uid cid un fn ln now →
          alist_find uid s.users = none →
          ∃ v, alist_find uid s2.users = some v
            ∧ v.current_dialog_id = none)
      ∧ (∀ uid did now, op = CoreOp.newDialog uid did now →
          ∃ d, alist_find did s2.dialogs = some d ∧ d.user_id = uid
            ∧ ∃ v, alist_find uid s2.users = some v
              ∧ v.current_dialog_id = some did) := by
  cases op with
  | addUser uid cid un fn ln now =>
    unfold apply_op add_new_user at hop
    dsimp only at hop
    by_cases he : check_if_user_exists s uid
    · rw [if_pos he] at hop
      injection hop with hop
      subst hop
      refine ⟨hinv, ?_, ?_⟩
      · intro uid' cid' un' fn' ln' now' heq hnone
        injection heq with e1 e2 e3 e4 e5 e6
        subst e1
        unfold check_if_user_exists at he
        rw [hnone] at he
        simp at he
      · intro uid' did' now' heq
        simp at heq
    · rw [if_neg he] at hop
      cases hm : cfg.available_text_models with
      | nil =>
        rw [hm] at hop
        cases hop
      | cons m0 ms =>
        rw [hm] at hop
        injection hop with hop
        subst hop
        refine ⟨?_, ?_, ?_⟩
        · intro p hp
          rcases List.mem_append.mp hp with hp | hp
          · exact hinv p hp
          · simp only [List.mem_singleton] at hp
            subst hp
            rfl
        · intro uid' cid' un' fn' ln' now' heq hnone
          injection heq with e1 e2 e3 e4 e5 e6
          subst e1
          subst e2
          subst e3
          subst e4
          subst e5
          subst e6
          exact ⟨_, alist_find_append_singleton_self _ hnone, rfl⟩
        · intro uid' did' now' heq
          simp at heq
  | newDialog uid did now =>
    unfold apply_op at hop
    dsimp only at hop
    cases hst : start_new_dialog s uid did now with
    | error e =>
      rw [hst] at hop
      cases hop
    | ok r =>
      rw [hst] at hop
      simp only [Except.map] at hop
      rcases start_new_dialog_ok s uid did now r hst with ⟨u, hu, hnone, hr⟩
      subst hr
      injection hop with hop
      subst hop
      refine ⟨?_, ?_, ?_⟩
      · intro p hp
        rcases List.mem_map.mp hp with ⟨q, hq, hgq⟩
        by_cases h1 : q.1 = uid
        · rw [if_pos h1] at hgq
          subst hgq
          unfold pointer_ok
          dsimp only
          rw [List.any_append]
          have hsing : ([(did, (⟨uid, u.current_chat_mode, now,
              u.current_model, []⟩ : DialogDoc))].any
              fun q2 => decide (q2.1 = did ∧ q2.2.user_id = q.1)) = true := by
            simp [h1]
          rw [hsing, Bool.or_true]
        · rw [if_neg h1] at hgq
          subst hgq
          exact pointer_ok_append s.dialogs _ q (hinv q hq)
      · intro uid' cid' un' fn' ln' now' heq
        simp at heq
      · intro uid' did' now' heq
        injection heq with e1 e2 e3
        subst e1
        subst e2
        subst e3
        refine ⟨_, alist_find_append_singleton_self _ hnone, rfl,
          { u with current_dialog_id := some did }, ?_, rfl⟩
        show alist_find uid (alist_map_at uid
            (fun v => { v with current_dialog_id := some did }) s.users)
          = some { u with current_dialog_id := some did }
        rw [alist_find_map_at_self, hu]
        rfl
  | setMessages uid msgs did? =>
    unfold apply_op at hop
    dsimp only at hop
    rcases set_dialog_messages_ok_shape s uid msgs did? s2 hop with ⟨d, hs2⟩
    subst hs2
    refine ⟨?_, ?_, ?_⟩
    · exact dbInvariant_map_dialogs s _
        (fun q => by constructor <;> split <;> rfl) hinv
    · intro uid' cid' un' fn' ln' now' heq
      simp at heq
    · intro uid' did' now' heq
      simp at heq
  | recordUsage uid model ni no =>
    unfold apply_op at hop
    dsimp only at hop
    rcases update_tokens_ok_shape s uid model ni no s2 hop with ⟨toks, hs2⟩
    subst hs2
    refine ⟨?_, ?_, ?_⟩
    · exact dbInvariant_map_users s uid _ (fun v => rfl) hinv
    · intro uid' cid' un' fn' ln' now' heq
      simp at heq
    · intro uid' did' now' heq
      simp at heq

def st10 : DBState :=
  ⟨[(7, { user7 with current_dialog_id := some "d9" })],
    [("d9", ⟨7, "assistant", 3, gm, []⟩)]⟩

theorem C10_witness :
    dbInvariant st10
      ∧ ∃ d, alist_find "d9" st10.dialogs = some d ∧ d.user_id = 7
        ∧ ∃ v, alist_find (7 : Int) st10.users = some v
          ∧ v.current_dialog_id = some "d9" := by
  have h := C10_referential_invariant cfg0 stA st10
    (CoreOp.newDialog 7 "d9" 3) (by decide) rfl
  exact ⟨h.1, h.2.2 7 "d9" 3 rfl⟩

end Gemi
